import Mathlib

/-!
Shallow embedding of the authenticated request client of the Choosy
mini-program frontend (src/services/api.ts, here `part_012`) and of the
token helpers in src/services/user.ts, together with an event-loop model
of the refresh coordinator (`isRefreshing` / `refreshQueue`).

Conventions of the embedding:
* JavaScript strings read from storage are modelled through `Except Unit
  String`: `.error` is a thrown storage access, `.ok s` a returned string
  (the empty string plays the role of a missing key, as
  `Taro.getStorageSync` returns `''` for absent keys).
* JS truthiness on strings (`x || y`) is modelled by `jsOrStr`: the empty
  string counts as falsy.
* One logical call to `request` is a pure function of the per-attempt
  environment: what the token read yields, what the transport returns and
  what `handleTokenRefresh` would answer at each attempt.  The function
  returns a `Trace` recording every observable effect the claims talk
  about: issued attempts, Authorization headers, sleeps, credential
  clears, refresh invocations, and the final outcome.
-/

/-- `String.includes` of JavaScript on exploded strings: does `pat` occur
as a contiguous substring? -/
def strContainsAux (pat : List Char) : List Char → Bool
  | [] => pat.isEmpty
  | c :: cs => pat.isPrefixOf (c :: cs) || strContainsAux pat cs

/-- `s.includes(pat)` of JavaScript. -/
def jsIncludes (s pat : String) : Bool :=
  strContainsAux pat.toList s.toList

/-- JS `a || b` on an optional string field: `none` and `""` are falsy. -/
def jsOrStr (a : Option String) (b : String) : String :=
  match a with
  | some s => if s = "" then b else s
  | none => b

/-- `API_RETRIES` from config/api.config.ts. -/
def apiRetries : Nat := 3

/-- `API_TIMEOUT` (ms) from config/api.config.ts. -/
def apiTimeout : Nat := 10000

/-- api.ts lines 26-32: `getToken` reads `access_token` from storage,
returning `null` on a thrown storage access and on a falsy (absent/empty)
value. -/
def getToken (raw : Except Unit String) : Option String :=
  match raw with
  | .error _ => none
  | .ok s => if s = "" then none else some s

/-- An HTTP response as `request` inspects it: the status code and the
fields of `response.data` that the error branch reads, plus `body`
standing for the parsed payload returned on 2xx. -/
structure ApiResponse where
  statusCode : Nat
  error_description : Option String
  message : Option String
  detail : Option String
  body : String
deriving DecidableEq, Repr

/-- Outcome of one `Taro.request` call: a response, or a thrown transport
error (network failure / timeout). -/
inductive TransportOutcome where
  | resp (r : ApiResponse)
  | thrown (e : String)
deriving DecidableEq, Repr

/-- The environment one attempt of the retry loop runs in: the result of
the `access_token` storage read, the transport outcome, and the value
`handleTokenRefresh` resolves to if this attempt invokes it. -/
structure AttemptEnv where
  storageRead : Except Unit String
  outcome : TransportOutcome
  refreshResult : Bool

/-- api.ts lines 100-108: the `Authorization` header attached to one
attempt.  The token is suppressed for URLs containing `/auth/token`;
otherwise `getToken` is consulted and, when it yields a token `t`, the
header is `Bearer t`. -/
def authHeader (url : String) (e : AttemptEnv) : Option String :=
  let token := if jsIncludes url "/auth/token" then none else getToken e.storageRead
  match token with
  | some t => some ("Bearer " ++ t)
  | none => none

/-- api.ts lines 146-150: the error message extracted from a non-2xx
response: `error_description || message || detail || "请求失败: <status>"`. -/
def responseErrorMsg (r : ApiResponse) : String :=
  jsOrStr r.error_description
    (jsOrStr r.message
      (jsOrStr r.detail ("请求失败: " ++ toString r.statusCode)))

/-- Result of one logical `request` call: the parsed body on success, or
the message of the error finally thrown. -/
inductive ReqResult where
  | success (body : String)
  | failure (msg : String)
deriving DecidableEq, Repr

/-- Observable effects of one logical `request` call. -/
structure Trace where
  attempts : Nat
  headers : List (Option String)
  delays : List Nat
  clears : Nat
  refreshCalls : Nat
  result : ReqResult
deriving DecidableEq, Repr

/-- api.ts lines 98-169: the retry loop of `request`, one constructor case
per iteration.  `fuel` is the number of loop iterations still allowed
(`retries + 1 - attempt` at every call site), so `fuel = 0` is the loop
exit `throw new Error('请求失败')`.  Within an iteration:
* a 2xx response returns the body (line 122-125);
* a 401 on a non-`/auth/` URL invokes `handleTokenRefresh` (line 128-141):
  on success the loop `continue`s with no sleep; on failure the four
  credentials are removed and `Error('登录已过期，请重新登录')` is thrown —
  that throw is caught by the loop's own `catch` (line 156), which sleeps
  1000 ms and retries while `attempt < retries` and rethrows otherwise;
* any other non-2xx response computes `responseErrorMsg` and throws it
  only when `attempt === retries` (line 153), else falls through to the
  next iteration with no sleep;
* a thrown transport error is caught (line 156): sleep 1000 ms and retry
  while `attempt < retries`, rethrow otherwise. -/
def requestGo (url : String) (retries : Nat) (env : Nat → AttemptEnv) :
    Nat → Nat → Trace
  | 0, _ =>
    { attempts := 0, headers := [], delays := [], clears := 0,
      refreshCalls := 0, result := .failure "请求失败" }
  | fuel + 1, attempt =>
    match (env attempt).outcome with
    | .thrown err =>
      if attempt < retries then
        let t := requestGo url retries env fuel (attempt + 1)
        { attempts := t.attempts + 1,
          headers := authHeader url (env attempt) :: t.headers,
          delays := 1000 :: t.delays, clears := t.clears,
          refreshCalls := t.refreshCalls, result := t.result }
      else
        { attempts := 1, headers := [authHeader url (env attempt)],
          delays := [], clears := 0, refreshCalls := 0,
          result := .failure err }
    | .resp r =>
      if 200 ≤ r.statusCode ∧ r.statusCode < 300 then
        { attempts := 1, headers := [authHeader url (env attempt)],
          delays := [], clears := 0, refreshCalls := 0,
          result := .success r.body }
      else if r.statusCode = 401 ∧ jsIncludes url "/auth/" = false then
        if (env attempt).refreshResult then
          let t := requestGo url retries env fuel (attempt + 1)
          { attempts := t.attempts + 1,
            headers := authHeader url (env attempt) :: t.headers,
            delays := t.delays, clears := t.clears,
            refreshCalls := t.refreshCalls + 1, result := t.result }
        else if attempt < retries then
          let t := requestGo url retries env fuel (attempt + 1)
          { attempts := t.attempts + 1,
            headers := authHeader url (env attempt) :: t.headers,
            delays := 1000 :: t.delays, clears := t.clears + 1,
            refreshCalls := t.refreshCalls + 1, result := t.result }
        else
          { attempts := 1, headers := [authHeader url (env attempt)],
            delays := [], clears := 1, refreshCalls := 1,
            result := .failure "登录已过期，请重新登录" }
      else
        if attempt = retries then
          { attempts := 1, headers := [authHeader url (env attempt)],
            delays := [], clears := 0, refreshCalls := 0,
            result := .failure (responseErrorMsg r) }
        else
          let t := requestGo url retries env fuel (attempt + 1)
          { attempts := t.attempts + 1,
            headers := authHeader url (env attempt) :: t.headers,
            delays := t.delays, clears := t.clears,
            refreshCalls := t.refreshCalls, result := t.result }

/-- One logical call to `request` (api.ts line 88): the loop starts at
`attempt = 1` with `apiRetries` iterations available. -/
def request (url : String) (env : Nat → AttemptEnv) : Trace :=
  requestGo url apiRetries env apiRetries 1

example :
    request "/api/x"
      (fun _ =>
        { storageRead := .ok "tok",
          outcome := .resp
            { statusCode := 200, error_description := none, message := none,
              detail := none, body := "ok" },
          refreshResult := false }) =
      { attempts := 1, headers := [some "Bearer tok"], delays := [],
        clears := 0, refreshCalls := 0, result := .success "ok" } := by
  decide

/-! ## Token helpers from src/services/user.ts -/

/-- The token endpoint response shape (user.ts `TokenResponse`). -/
structure TokenResponse where
  access_token : String
  refresh_token : String
  token_type : String
  expires_in : Int
deriving DecidableEq, Repr

/-- The key-value storage slots user.ts reads and writes.  `none` covers
both an absent key and a thrown storage access, which the source
collapses to the same result in every reader (each reader catches and
falls back to the absent-key behaviour). -/
structure UserStorage where
  access_token : Option String
  refresh_token : Option String
  token_expires_at : Option Int
  user_info : Option String
deriving DecidableEq, Repr

/-- user.ts lines 36-42: `getAccessToken`, with JS falsiness on the stored
string (`'' || null` is `null`). -/
def getAccessToken (s : UserStorage) : Option String :=
  match s.access_token with
  | none => none
  | some t => if t = "" then none else some t

/-- user.ts lines 58-64 / api.ts line 55: the expiry instant recorded by
`saveTokens`: `Date.now() + (expires_in - 300) * 1000` — the 5-minute
margin subtracted at save time. -/
def saveTokensExpiresAt (now expiresIn : Int) : Int :=
  now + (expiresIn - 300) * 1000

/-- user.ts lines 98-106: `isTokenExpiringSoon` — true when the recorded
expiry is absent (or falsy, i.e. the number `0`) or `Date.now()` has
reached it. -/
def isTokenExpiringSoon (s : UserStorage) (now : Int) : Bool :=
  match s.token_expires_at with
  | none => true
  | some e => if e = 0 then true else decide (now ≥ e)

/-- user.ts lines 134-145: `ensureValidToken`.  The refresh path is kept
abstract as `doRefresh`, returning the `refreshToken()` result, the
storage it leaves behind and how many network calls it issued; the
function returns the token result (`result?.access_token || null`), the
final storage and the number of network calls issued. -/
def ensureValidToken (s : UserStorage) (now : Int)
    (doRefresh : UserStorage → Option TokenResponse × UserStorage × Nat) :
    Option String × UserStorage × Nat :=
  match getAccessToken s with
  | none => (none, s, 0)
  | some token =>
    if isTokenExpiringSoon s now then
      match doRefresh s with
      | (result, s2, n) =>
        (match result with
         | some resp =>
           if resp.access_token = "" then none else some resp.access_token
         | none => none, s2, n)
    else (some token, s, 0)

/-! ## Event-loop model of the refresh coordinator (api.ts lines 18-85)

`handleTokenRefresh` runs on a single-threaded event loop: the code from
its entry to the first `await` is atomic, and so is the code after
`doRefreshToken` resolves.  A caller of `handleTokenRefresh` is therefore
in one of four phases, and the system takes one of three atomic steps:

* a caller at `.start` runs lines 69-77 while `isRefreshing` is `false`:
  it sets the flag, invokes `doRefreshToken` and suspends (`.waiting`);
* a caller at `.start` runs lines 69-73 while `isRefreshing` is `true`:
  it pushes a resolver of `true` on `refreshQueue` and suspends
  (`.queued`);
* the in-flight `doRefreshToken` resolves with `b` and its caller runs
  lines 78-84: the flag clears, every queued caller is resolved with
  `true`, the queue empties, and the refresher returns `b`. -/

/-- Phase of one caller of `handleTokenRefresh`. -/
inductive CallerPC where
  | start
  | waiting
  | queued
  | done (b : Bool)
deriving DecidableEq, Repr

/-- Module state of api.ts (lines 18-21) plus the phases of the callers,
and a counter of `doRefreshToken` invocations. -/
structure CoordConfig where
  isRefreshing : Bool
  refreshQueue : List Nat
  doRefreshCalls : Nat
  pcs : Nat → CallerPC

/-- Successor configuration of the step in which caller `i` enters
`handleTokenRefresh` with `isRefreshing = false` (lines 76-77). -/
def enterIdleCfg (c : CoordConfig) (i : Nat) : CoordConfig :=
  { isRefreshing := true, refreshQueue := c.refreshQueue,
    doRefreshCalls := c.doRefreshCalls + 1,
    pcs := fun j => if j = i then .waiting else c.pcs j }

/-- Successor configuration of the step in which caller `i` enters
`handleTokenRefresh` with `isRefreshing = true` (lines 69-73). -/
def enterBusyCfg (c : CoordConfig) (i : Nat) : CoordConfig :=
  { isRefreshing := c.isRefreshing, refreshQueue := c.refreshQueue ++ [i],
    doRefreshCalls := c.doRefreshCalls,
    pcs := fun j => if j = i then .queued else c.pcs j }

/-- Successor configuration of the step in which the in-flight
`doRefreshToken` of caller `i` resolves with `b` (lines 78-84): the flag
clears, each queued caller resolves with `true`, the queue empties. -/
def completeCfg (c : CoordConfig) (i : Nat) (b : Bool) : CoordConfig :=
  { isRefreshing := false, refreshQueue := [],
    doRefreshCalls := c.doRefreshCalls,
    pcs := fun j =>
      if j = i then .done b
      else if j ∈ c.refreshQueue then .done true
      else c.pcs j }

/-- One atomic event-loop step of the coordinator. -/
inductive CoordStep : CoordConfig → CoordConfig → Prop where
  | enterIdle (c : CoordConfig) (i : Nat) :
      c.pcs i = .start → c.isRefreshing = false →
      CoordStep c (enterIdleCfg c i)
  | enterBusy (c : CoordConfig) (i : Nat) :
      c.pcs i = .start → c.isRefreshing = true →
      CoordStep c (enterBusyCfg c i)
  | complete (c : CoordConfig) (i : Nat) (b : Bool) :
      c.pcs i = .waiting →
      CoordStep c (completeCfg c i b)

/-- A quiescent configuration: no refresh in flight, empty queue, no
caller suspended in the coordinator. -/
def CoordInit (c : CoordConfig) : Prop :=
  c.isRefreshing = false ∧ c.refreshQueue = [] ∧
  ∀ i, c.pcs i ≠ .waiting ∧ c.pcs i ≠ .queued

/-- Reflexive-transitive closure of `CoordStep`. -/
inductive CoordReach (c0 : CoordConfig) : CoordConfig → Prop where
  | refl : CoordReach c0 c0
  | tail {c c' : CoordConfig} :
      CoordReach c0 c → CoordStep c c' → CoordReach c0 c'

/-- Coordinator invariant: the flag is set exactly while some caller has
a `doRefreshToken` in flight, at most one caller is in flight, and every
queue entry is a `.queued` caller. -/
def CoordInv (c : CoordConfig) : Prop :=
  (c.isRefreshing = true ↔ ∃ i, c.pcs i = .waiting) ∧
  (∀ i j, c.pcs i = .waiting → c.pcs j = .waiting → i = j) ∧
  (∀ i, i ∈ c.refreshQueue → c.pcs i = .queued)


/-- The invariant holds in every quiescent configuration. -/
theorem coordInv_of_init (c : CoordConfig) (h : CoordInit c) : CoordInv c := by
  obtain ⟨h1, h2, h3⟩ := h
  refine ⟨⟨fun hh => absurd hh (by rw [h1]; simp), ?_⟩, ?_, ?_⟩
  · rintro ⟨i, hi⟩
    exact absurd hi (h3 i).1
  · intro i j hi _
    exact absurd hi (h3 i).1
  · intro i hi
    rw [h2] at hi
    cases hi

/-- The invariant is preserved by every coordinator step. -/
theorem coordInv_step {c c' : CoordConfig} (hinv : CoordInv c)
    (hs : CoordStep c c') : CoordInv c' := by
  obtain ⟨hiff, huniq, hq⟩ := hinv
  cases hs with
  | enterIdle i hpc hflag =>
    refine ⟨⟨fun _ => ⟨i, by simp [enterIdleCfg]⟩, fun _ => rfl⟩, ?_, ?_⟩
    · intro a b ha hb
      simp only [enterIdleCfg] at ha hb
      by_cases hai : a = i
      · by_cases hbi : b = i
        · rw [hai, hbi]
        · rw [if_neg hbi] at hb
          exact absurd (hiff.mpr ⟨b, hb⟩) (by rw [hflag]; simp)
      · rw [if_neg hai] at ha
        exact absurd (hiff.mpr ⟨a, ha⟩) (by rw [hflag]; simp)
    · intro j hj
      have hjq := hq j hj
      have hji : j ≠ i := by
        intro hh
        rw [hh, hpc] at hjq
        cases hjq
      simp only [enterIdleCfg, if_neg hji]
      exact hjq
  | enterBusy i hpc hflag =>
    obtain ⟨w, hw⟩ := hiff.mp hflag
    have hwi : w ≠ i := by
      intro hh
      rw [hh, hpc] at hw
      cases hw
    refine ⟨⟨fun _ => ⟨w, by simp [enterBusyCfg, if_neg hwi]; exact hw⟩,
      fun _ => hflag⟩, ?_, ?_⟩
    · intro a b ha hb
      simp only [enterBusyCfg] at ha hb
      by_cases hai : a = i
      · rw [if_pos hai] at ha
        cases ha
      · by_cases hbi : b = i
        · rw [if_pos hbi] at hb
          cases hb
        · rw [if_neg hai] at ha
          rw [if_neg hbi] at hb
          exact huniq a b ha hb
    · intro j hj
      simp only [enterBusyCfg] at hj ⊢
      rcases List.mem_append.mp hj with hj | hj
      · have hjq := hq j hj
        have hji : j ≠ i := by
          intro hh
          rw [hh, hpc] at hjq
          cases hjq
        rw [if_neg hji]
        exact hjq
      · have hji : j = i := by simpa using hj
        rw [if_pos hji]
  | complete i b hpc =>
    have hnone : ∀ a, (completeCfg c i b).pcs a ≠ .waiting := by
      intro a ha
      simp only [completeCfg] at ha
      by_cases hai : a = i
      · rw [if_pos hai] at ha
        cases ha
      · rw [if_neg hai] at ha
        by_cases haq : a ∈ c.refreshQueue
        · rw [if_pos haq] at ha
          cases ha
        · rw [if_neg haq] at ha
          exact hai (huniq a i ha hpc)
    refine ⟨⟨fun hh => absurd hh (by simp [completeCfg]), ?_⟩, ?_, ?_⟩
    · rintro ⟨a, ha⟩
      exact absurd ha (hnone a)
    · intro a b2 ha _
      exact absurd ha (hnone a)
    · intro j hj
      simp only [completeCfg] at hj
      cases hj

/-- The invariant holds in every configuration reachable from a quiescent
one. -/
theorem coordInv_of_reach {c0 c : CoordConfig} (h0 : CoordInit c0)
    (hr : CoordReach c0 c) : CoordInv c := by
  induction hr with
  | refl => exact coordInv_of_init c0 h0
  | tail _ hs ih => exact coordInv_step ih hs

/-- A quiescent demonstration configuration: three callers about to
invoke `handleTokenRefresh`, nothing in flight. -/
def coordDemo : CoordConfig :=
  { isRefreshing := false, refreshQueue := [], doRefreshCalls := 0,
    pcs := fun _ => .start }

theorem coordDemo_init : CoordInit coordDemo := by
  refine ⟨rfl, rfl, fun i => ⟨?_, ?_⟩⟩ <;> simp [coordDemo]

/-- C1: in every configuration reachable from a quiescent one, at most
one caller has a `doRefreshToken` call in flight; moreover, while
`isRefreshing` is `true`, no step invokes `doRefreshToken` (the counter
is unchanged), and a caller entering `handleTokenRefresh` then can only
remain at `.start` or move to `.queued` — it never becomes the
refresher. -/
theorem c1_single_flight_refresh (c0 c : CoordConfig)
    (h0 : CoordInit c0) (hr : CoordReach c0 c) :
    (∀ i j, c.pcs i = .waiting → c.pcs j = .waiting → i = j) ∧
    (∀ c', CoordStep c c' → c.isRefreshing = true →
      c'.doRefreshCalls = c.doRefreshCalls) ∧
    (∀ c' i, CoordStep c c' → c.isRefreshing = true → c.pcs i = .start →
      c'.pcs i = .start ∨ c'.pcs i = .queued) := by
  obtain ⟨hiff, huniq, hq⟩ := coordInv_of_reach h0 hr
  refine ⟨huniq, ?_, ?_⟩
  · intro c' hs hflag
    cases hs with
    | enterIdle i hpc hidle => rw [hidle] at hflag; cases hflag
    | enterBusy i hpc hbusy => rfl
    | complete i b hpc => rfl
  · intro c' i hs hflag hstart
    cases hs with
    | enterIdle a hpc hidle => rw [hidle] at hflag; cases hflag
    | enterBusy a hpc hbusy =>
      by_cases hia : i = a
      · right
        simp [enterBusyCfg, hia]
      · left
        simpa [enterBusyCfg, hia] using hstart
    | complete a b hpc =>
      left
      have hia : i ≠ a := by
        intro hh
        rw [hh, hpc] at hstart
        cases hstart
      have hiq : i ∉ c.refreshQueue := by
        intro hh
        rw [hq i hh] at hstart
        cases hstart
      simpa [completeCfg, hia, hiq] using hstart

/-- Closed instantiation of `c1_single_flight_refresh` at the quiescent
three-caller configuration. -/
theorem c1_single_flight_refresh_witness :
    CoordInit coordDemo ∧
    ((∀ i j, coordDemo.pcs i = .waiting → coordDemo.pcs j = .waiting → i = j) ∧
      (∀ c', CoordStep coordDemo c' → coordDemo.isRefreshing = true →
        c'.doRefreshCalls = coordDemo.doRefreshCalls) ∧
      (∀ c' i, CoordStep coordDemo c' → coordDemo.isRefreshing = true →
        coordDemo.pcs i = .start →
        c'.pcs i = .start ∨ c'.pcs i = .queued)) :=
  ⟨coordDemo_init,
    c1_single_flight_refresh coordDemo coordDemo coordDemo_init .refl⟩

/-- C8: in every reachable configuration, `isRefreshing` is `true` exactly
while some caller's refresh is in flight; the completion step resets the
flag, empties the waiter queue and resolves every queued waiter; and the
step starting a refresh sets the flag. -/
theorem c8_refresh_flag_lifecycle (c0 c : CoordConfig)
    (h0 : CoordInit c0) (hr : CoordReach c0 c) :
    (c.isRefreshing = true ↔ ∃ i, c.pcs i = .waiting) ∧
    (∀ i b, c.pcs i = .waiting →
      (completeCfg c i b).isRefreshing = false ∧
      (completeCfg c i b).refreshQueue = [] ∧
      ∀ j, j ∈ c.refreshQueue → (completeCfg c i b).pcs j = .done true) ∧
    (∀ i, c.pcs i = .start → c.isRefreshing = false →
      (enterIdleCfg c i).isRefreshing = true) := by
  obtain ⟨hiff, huniq, hq⟩ := coordInv_of_reach h0 hr
  refine ⟨hiff, ?_, fun i _ _ => rfl⟩
  intro i b hpc
  refine ⟨rfl, rfl, ?_⟩
  intro j hj
  have hji : j ≠ i := by
    intro hh
    have hqi := hq i (hh ▸ hj)
    rw [hpc] at hqi
    cases hqi
  simp [completeCfg, hji, hj]

/-- Closed instantiation of `c8_refresh_flag_lifecycle` at the quiescent
three-caller configuration. -/
theorem c8_refresh_flag_lifecycle_witness :
    CoordInit coordDemo ∧
    ((coordDemo.isRefreshing = true ↔ ∃ i, coordDemo.pcs i = .waiting) ∧
      (∀ i b, coordDemo.pcs i = .waiting →
        (completeCfg coordDemo i b).isRefreshing = false ∧
        (completeCfg coordDemo i b).refreshQueue = [] ∧
        ∀ j, j ∈ coordDemo.refreshQueue →
          (completeCfg coordDemo i b).pcs j = .done true) ∧
      (∀ i, coordDemo.pcs i = .start → coordDemo.isRefreshing = false →
        (enterIdleCfg coordDemo i).isRefreshing = true)) :=
  ⟨coordDemo_init,
    c8_refresh_flag_lifecycle coordDemo coordDemo coordDemo_init .refl⟩

/-! ## Unfolding lemmas for the retry loop, one per branch -/

theorem reqStep_thrown_retry (url : String) (retries : Nat)
    (env : Nat → AttemptEnv) (fuel attempt : Nat) (e : String)
    (ho : (env attempt).outcome = .thrown e) (hlt : attempt < retries) :
    requestGo url retries env (fuel + 1) attempt =
      { attempts := (requestGo url retries env fuel (attempt + 1)).attempts + 1,
        headers := authHeader url (env attempt) ::
          (requestGo url retries env fuel (attempt + 1)).headers,
        delays := 1000 :: (requestGo url retries env fuel (attempt + 1)).delays,
        clears := (requestGo url retries env fuel (attempt + 1)).clears,
        refreshCalls := (requestGo url retries env fuel (attempt + 1)).refreshCalls,
        result := (requestGo url retries env fuel (attempt + 1)).result } := by
  simp only [requestGo, ho]
  rw [if_pos hlt]

theorem reqStep_thrown_last (url : String) (retries : Nat)
    (env : Nat → AttemptEnv) (fuel attempt : Nat) (e : String)
    (ho : (env attempt).outcome = .thrown e) (hge : ¬ attempt < retries) :
    requestGo url retries env (fuel + 1) attempt =
      { attempts := 1, headers := [authHeader url (env attempt)],
        delays := [], clears := 0, refreshCalls := 0,
        result := .failure e } := by
  simp only [requestGo, ho]
  rw [if_neg hge]

theorem reqStep_2xx (url : String) (retries : Nat)
    (env : Nat → AttemptEnv) (fuel attempt : Nat) (r : ApiResponse)
    (ho : (env attempt).outcome = .resp r)
    (h2 : 200 ≤ r.statusCode) (h3 : r.statusCode < 300) :
    requestGo url retries env (fuel + 1) attempt =
      { attempts := 1, headers := [authHeader url (env attempt)],
        delays := [], clears := 0, refreshCalls := 0,
        result := .success r.body } := by
  simp only [requestGo, ho]
  rw [if_pos ⟨h2, h3⟩]

theorem reqStep_401_refresh_ok (url : String) (retries : Nat)
    (env : Nat → AttemptEnv) (fuel attempt : Nat) (r : ApiResponse)
    (ho : (env attempt).outcome = .resp r) (h401 : r.statusCode = 401)
    (hurl : jsIncludes url "/auth/" = false)
    (hok : (env attempt).refreshResult = true) :
    requestGo url retries env (fuel + 1) attempt =
      { attempts := (requestGo url retries env fuel (attempt + 1)).attempts + 1,
        headers := authHeader url (env attempt) ::
          (requestGo url retries env fuel (attempt + 1)).headers,
        delays := (requestGo url retries env fuel (attempt + 1)).delays,
        clears := (requestGo url retries env fuel (attempt + 1)).clears,
        refreshCalls :=
          (requestGo url retries env fuel (attempt + 1)).refreshCalls + 1,
        result := (requestGo url retries env fuel (attempt + 1)).result } := by
  simp only [requestGo, ho]
  rw [if_neg (by rw [h401]; omega), if_pos ⟨h401, hurl⟩, if_pos hok]

theorem reqStep_401_refresh_fail_retry (url : String) (retries : Nat)
    (env : Nat → AttemptEnv) (fuel attempt : Nat) (r : ApiResponse)
    (ho : (env attempt).outcome = .resp r) (h401 : r.statusCode = 401)
    (hurl : jsIncludes url "/auth/" = false)
    (hfail : (env attempt).refreshResult = false) (hlt : attempt < retries) :
    requestGo url retries env (fuel + 1) attempt =
      { attempts := (requestGo url retries env fuel (attempt + 1)).attempts + 1,
        headers := authHeader url (env attempt) ::
          (requestGo url retries env fuel (attempt + 1)).headers,
        delays := 1000 :: (requestGo url retries env fuel (attempt + 1)).delays,
        clears := (requestGo url retries env fuel (attempt + 1)).clears + 1,
        refreshCalls :=
          (requestGo url retries env fuel (attempt + 1)).refreshCalls + 1,
        result := (requestGo url retries env fuel (attempt + 1)).result } := by
  simp only [requestGo, ho]
  rw [if_neg (by rw [h401]; omega), if_pos ⟨h401, hurl⟩, hfail]
  simp only [Bool.false_eq_true, if_false]
  rw [if_pos hlt]

theorem reqStep_401_refresh_fail_last (url : String) (retries : Nat)
    (env : Nat → AttemptEnv) (fuel attempt : Nat) (r : ApiResponse)
    (ho : (env attempt).outcome = .resp r) (h401 : r.statusCode = 401)
    (hurl : jsIncludes url "/auth/" = false)
    (hfail : (env attempt).refreshResult = false) (hge : ¬ attempt < retries) :
    requestGo url retries env (fuel + 1) attempt =
      { attempts := 1, headers := [authHeader url (env attempt)],
        delays := [], clears := 1, refreshCalls := 1,
        result := .failure "登录已过期，请重新登录" } := by
  simp only [requestGo, ho]
  rw [if_neg (by rw [h401]; omega), if_pos ⟨h401, hurl⟩, hfail]
  simp only [Bool.false_eq_true, if_false]
  rw [if_neg hge]

theorem reqStep_other_retry (url : String) (retries : Nat)
    (env : Nat → AttemptEnv) (fuel attempt : Nat) (r : ApiResponse)
    (ho : (env attempt).outcome = .resp r)
    (hnot2xx : ¬ (200 ≤ r.statusCode ∧ r.statusCode < 300))
    (hnot401 : ¬ (r.statusCode = 401 ∧ jsIncludes url "/auth/" = false))
    (hne : attempt ≠ retries) :
    requestGo url retries env (fuel + 1) attempt =
      { attempts := (requestGo url retries env fuel (attempt + 1)).attempts + 1,
        headers := authHeader url (env attempt) ::
          (requestGo url retries env fuel (attempt + 1)).headers,
        delays := (requestGo url retries env fuel (attempt + 1)).delays,
        clears := (requestGo url retries env fuel (attempt + 1)).clears,
        refreshCalls := (requestGo url retries env fuel (attempt + 1)).refreshCalls,
        result := (requestGo url retries env fuel (attempt + 1)).result } := by
  simp only [requestGo, ho]
  rw [if_neg hnot2xx, if_neg hnot401, if_neg hne]

theorem reqStep_other_last (url : String) (retries : Nat)
    (env : Nat → AttemptEnv) (fuel attempt : Nat) (r : ApiResponse)
    (ho : (env attempt).outcome = .resp r)
    (hnot2xx : ¬ (200 ≤ r.statusCode ∧ r.statusCode < 300))
    (hnot401 : ¬ (r.statusCode = 401 ∧ jsIncludes url "/auth/" = false))
    (heq : attempt = retries) :
    requestGo url retries env (fuel + 1) attempt =
      { attempts := 1, headers := [authHeader url (env attempt)],
        delays := [], clears := 0, refreshCalls := 0,
        result := .failure (responseErrorMsg r) } := by
  simp only [requestGo, ho]
  rw [if_neg hnot2xx, if_neg hnot401, if_pos heq]

theorem reqGo_zero (url : String) (retries : Nat)
    (env : Nat → AttemptEnv) (attempt : Nat) :
    requestGo url retries env 0 attempt =
      { attempts := 0, headers := [], delays := [], clears := 0,
        refreshCalls := 0, result := .failure "请求失败" } := rfl

/-- The loop issues at most as many attempts as it has iterations left. -/
theorem requestGo_attempts_le (url : String) (retries : Nat)
    (env : Nat → AttemptEnv) :
    ∀ fuel attempt, (requestGo url retries env fuel attempt).attempts ≤ fuel := by
  intro fuel
  induction fuel with
  | zero => intro attempt; exact Nat.le_refl 0
  | succ n ih =>
    intro attempt
    cases ho : (env attempt).outcome with
    | thrown e =>
      by_cases hlt : attempt < retries
      · rw [reqStep_thrown_retry url retries env n attempt e ho hlt]
        exact Nat.succ_le_succ (ih (attempt + 1))
      · rw [reqStep_thrown_last url retries env n attempt e ho hlt]
        exact Nat.succ_le_succ (Nat.zero_le n)
    | resp r =>
      by_cases h2xx : 200 ≤ r.statusCode ∧ r.statusCode < 300
      · rw [reqStep_2xx url retries env n attempt r ho h2xx.1 h2xx.2]
        exact Nat.succ_le_succ (Nat.zero_le n)
      · by_cases h401 : r.statusCode = 401 ∧ jsIncludes url "/auth/" = false
        · cases hok : (env attempt).refreshResult with
          | true =>
            rw [reqStep_401_refresh_ok url retries env n attempt r ho h401.1
              h401.2 hok]
            exact Nat.succ_le_succ (ih (attempt + 1))
          | false =>
            by_cases hlt : attempt < retries
            · rw [reqStep_401_refresh_fail_retry url retries env n attempt r ho
                h401.1 h401.2 hok hlt]
              exact Nat.succ_le_succ (ih (attempt + 1))
            · rw [reqStep_401_refresh_fail_last url retries env n attempt r ho
                h401.1 h401.2 hok hlt]
              exact Nat.succ_le_succ (Nat.zero_le n)
        · by_cases heq : attempt = retries
          · rw [reqStep_other_last url retries env n attempt r ho h2xx h401 heq]
            exact Nat.succ_le_succ (Nat.zero_le n)
          · rw [reqStep_other_retry url retries env n attempt r ho h2xx h401 heq]
            exact Nat.succ_le_succ (ih (attempt + 1))

/-- With at least one iteration left, the loop issues a first attempt and
its Authorization header is the one computed for the current attempt. -/
theorem requestGo_first (url : String) (retries : Nat)
    (env : Nat → AttemptEnv) (fuel attempt : Nat) :
    1 ≤ (requestGo url retries env (fuel + 1) attempt).attempts ∧
    (requestGo url retries env (fuel + 1) attempt).headers.head? =
      some (authHeader url (env attempt)) := by
  cases ho : (env attempt).outcome with
  | thrown e =>
    by_cases hlt : attempt < retries
    · rw [reqStep_thrown_retry url retries env fuel attempt e ho hlt]
      exact ⟨Nat.succ_le_succ (Nat.zero_le _), rfl⟩
    · rw [reqStep_thrown_last url retries env fuel attempt e ho hlt]
      exact ⟨Nat.le_refl 1, rfl⟩
  | resp r =>
    by_cases h2xx : 200 ≤ r.statusCode ∧ r.statusCode < 300
    · rw [reqStep_2xx url retries env fuel attempt r ho h2xx.1 h2xx.2]
      exact ⟨Nat.le_refl 1, rfl⟩
    · by_cases h401 : r.statusCode = 401 ∧ jsIncludes url "/auth/" = false
      · cases hok : (env attempt).refreshResult with
        | true =>
          rw [reqStep_401_refresh_ok url retries env fuel attempt r ho h401.1
            h401.2 hok]
          exact ⟨Nat.succ_le_succ (Nat.zero_le _), rfl⟩
        | false =>
          by_cases hlt : attempt < retries
          · rw [reqStep_401_refresh_fail_retry url retries env fuel attempt r ho
              h401.1 h401.2 hok hlt]
            exact ⟨Nat.succ_le_succ (Nat.zero_le _), rfl⟩
          · rw [reqStep_401_refresh_fail_last url retries env fuel attempt r ho
              h401.1 h401.2 hok hlt]
            exact ⟨Nat.le_refl 1, rfl⟩
      · by_cases heq : attempt = retries
        · rw [reqStep_other_last url retries env fuel attempt r ho h2xx h401 heq]
          exact ⟨Nat.le_refl 1, rfl⟩
        · rw [reqStep_other_retry url retries env fuel attempt r ho h2xx h401 heq]
          exact ⟨Nat.succ_le_succ (Nat.zero_le _), rfl⟩

/-- The `j`-th recorded Authorization header of the loop started at
`attempt` is the one computed for attempt `attempt + j`. -/
theorem requestGo_headers_get (url : String) (retries : Nat)
    (env : Nat → AttemptEnv) :
    ∀ fuel attempt j,
      j < (requestGo url retries env fuel attempt).headers.length →
      (requestGo url retries env fuel attempt).headers.get? j =
        some (authHeader url (env (attempt + j))) := by
  intro fuel
  induction fuel with
  | zero =>
    intro attempt j hj
    rw [reqGo_zero] at hj
    exact absurd hj (by simp)
  | succ n ih =>
    intro attempt j hj
    have hcons :
        ∀ (tl : List (Option String)),
          (∀ k, k < tl.length →
            tl.get? k = some (authHeader url (env (attempt + 1 + k)))) →
          j < (authHeader url (env attempt) :: tl).length →
          (authHeader url (env attempt) :: tl).get? j =
            some (authHeader url (env (attempt + j))) := by
      intro tl htl hj2
      cases j with
      | zero => simp
      | succ k =>
        have hk : k < tl.length := Nat.lt_of_succ_lt_succ (by simpa using hj2)
        have harith : attempt + 1 + k = attempt + (k + 1) := by omega
        have := htl k hk
        rw [harith] at this
        simpa using this
    have hsing :
        j < ([authHeader url (env attempt)] : List (Option String)).length →
        ([authHeader url (env attempt)] : List (Option String)).get? j =
          some (authHeader url (env (attempt + j))) := by
      intro hj2
      have hj0 : j = 0 := by
        have := by simpa using hj2
        omega
      subst hj0
      simp
    cases ho : (env attempt).outcome with
    | thrown e =>
      by_cases hlt : attempt < retries
      · rw [reqStep_thrown_retry url retries env n attempt e ho hlt] at hj ⊢
        exact hcons _ (fun k hk => ih (attempt + 1) k hk) hj
      · rw [reqStep_thrown_last url retries env n attempt e ho hlt] at hj ⊢
        exact hsing hj
    | resp r =>
      by_cases h2xx : 200 ≤ r.statusCode ∧ r.statusCode < 300
      · rw [reqStep_2xx url retries env n attempt r ho h2xx.1 h2xx.2] at hj ⊢
        exact hsing hj
      · by_cases h401 : r.statusCode = 401 ∧ jsIncludes url "/auth/" = false
        · cases hok : (env attempt).refreshResult with
          | true =>
            rw [reqStep_401_refresh_ok url retries env n attempt r ho h401.1
              h401.2 hok] at hj ⊢
            exact hcons _ (fun k hk => ih (attempt + 1) k hk) hj
          | false =>
            by_cases hlt : attempt < retries
            · rw [reqStep_401_refresh_fail_retry url retries env n attempt r ho
                h401.1 h401.2 hok hlt] at hj ⊢
              exact hcons _ (fun k hk => ih (attempt + 1) k hk) hj
            · rw [reqStep_401_refresh_fail_last url retries env n attempt r ho
                h401.1 h401.2 hok hlt] at hj ⊢
              exact hsing hj
        · by_cases heq : attempt = retries
          · rw [reqStep_other_last url retries env n attempt r ho h2xx h401
              heq] at hj ⊢
            exact hsing hj
          · rw [reqStep_other_retry url retries env n attempt r ho h2xx h401
              heq] at hj ⊢
            exact hcons _ (fun k hk => ih (attempt + 1) k hk) hj

/-- When every remaining attempt fails with a thrown transport error, the
loop uses its whole budget and sleeps 1000 ms between consecutive
attempts. -/
theorem requestGo_all_thrown (url : String) (retries : Nat)
    (env : Nat → AttemptEnv) :
    ∀ fuel attempt, fuel + attempt = retries + 1 → 1 ≤ fuel →
      (∀ k, attempt ≤ k → k ≤ retries → ∃ e, (env k).outcome = .thrown e) →
      (requestGo url retries env fuel attempt).attempts = fuel ∧
      (requestGo url retries env fuel attempt).delays =
        List.replicate (fuel - 1) 1000 := by
  intro fuel
  induction fuel with
  | zero => intro attempt _ h2 _; omega
  | succ f ih =>
    intro attempt hsum _ hall
    obtain ⟨e, he⟩ := hall attempt (Nat.le_refl _) (by omega)
    by_cases hf : f = 0
    · subst hf
      have hge : ¬ attempt < retries := by omega
      rw [reqStep_thrown_last url retries env 0 attempt e he hge]
      exact ⟨rfl, rfl⟩
    · have hlt : attempt < retries := by omega
      rw [reqStep_thrown_retry url retries env f attempt e he hlt]
      have ihres := ih (attempt + 1) (by omega) (by omega)
        (fun k hk1 hk2 => hall k (by omega) hk2)
      refine ⟨?_, ?_⟩
      · show (requestGo url retries env f (attempt + 1)).attempts + 1 = f + 1
        rw [ihres.1]
      · show 1000 :: (requestGo url retries env f (attempt + 1)).delays =
          List.replicate (f + 1 - 1) 1000
        rw [ihres.2]
        obtain ⟨g, rfl⟩ : ∃ g, f = g + 1 := ⟨f - 1, by omega⟩
        simp [List.replicate_succ]

/-- When every remaining attempt gets a 401 on a non-`/auth/` URL and the
refresh fails each time, the loop clears the credentials once per
attempt, sleeps 1000 ms between consecutive attempts, and finally fails
with the authentication-expired message. -/
theorem requestGo_all_401_fail (url : String) (retries : Nat)
    (env : Nat → AttemptEnv) (hurl : jsIncludes url "/auth/" = false) :
    ∀ fuel attempt, fuel + attempt = retries + 1 → 1 ≤ fuel →
      (∀ k, attempt ≤ k → k ≤ retries → ∃ r, (env k).outcome = .resp r ∧
        r.statusCode = 401 ∧ (env k).refreshResult = false) →
      (requestGo url retries env fuel attempt).attempts = fuel ∧
      (requestGo url retries env fuel attempt).clears = fuel ∧
      (requestGo url retries env fuel attempt).refreshCalls = fuel ∧
      (requestGo url retries env fuel attempt).delays =
        List.replicate (fuel - 1) 1000 ∧
      (requestGo url retries env fuel attempt).result =
        .failure "登录已过期，请重新登录" := by
  intro fuel
  induction fuel with
  | zero => intro attempt _ h2 _; omega
  | succ f ih =>
    intro attempt hsum _ hall
    obtain ⟨r, hr, hs, hfail⟩ := hall attempt (Nat.le_refl _) (by omega)
    by_cases hf : f = 0
    · subst hf
      have hge : ¬ attempt < retries := by omega
      rw [reqStep_401_refresh_fail_last url retries env 0 attempt r hr hs hurl
        hfail hge]
      exact ⟨rfl, rfl, rfl, rfl, rfl⟩
    · have hlt : attempt < retries := by omega
      rw [reqStep_401_refresh_fail_retry url retries env f attempt r hr hs hurl
        hfail hlt]
      have ihres := ih (attempt + 1) (by omega) (by omega)
        (fun k hk1 hk2 => hall k (by omega) hk2)
      refine ⟨?_, ?_, ?_, ?_, ?_⟩
      · show (requestGo url retries env f (attempt + 1)).attempts + 1 = f + 1
        rw [ihres.1]
      · show (requestGo url retries env f (attempt + 1)).clears + 1 = f + 1
        rw [ihres.2.1]
      · show (requestGo url retries env f (attempt + 1)).refreshCalls + 1 = f + 1
        rw [ihres.2.2.1]
      · show 1000 :: (requestGo url retries env f (attempt + 1)).delays =
          List.replicate (f + 1 - 1) 1000
        rw [ihres.2.2.2.1]
        obtain ⟨g, rfl⟩ : ∃ g, f = g + 1 := ⟨f - 1, by omega⟩
        simp [List.replicate_succ]
      · show (requestGo url retries env f (attempt + 1)).result = _
        exact ihres.2.2.2.2

/-- When every remaining attempt gets a non-2xx, non-401 response, the
loop never sleeps and finally fails with the message extracted from the
last response by `responseErrorMsg`. -/
theorem requestGo_all_non401 (url : String) (retries : Nat)
    (env : Nat → AttemptEnv) :
    ∀ fuel attempt, fuel + attempt = retries + 1 → 1 ≤ fuel →
      (∀ k, attempt ≤ k → k ≤ retries → ∃ r, (env k).outcome = .resp r ∧
        300 ≤ r.statusCode ∧ r.statusCode ≠ 401) →
      (requestGo url retries env fuel attempt).delays = [] ∧
      ∃ r, (env retries).outcome = .resp r ∧
        (requestGo url retries env fuel attempt).result =
          .failure (responseErrorMsg r) := by
  intro fuel
  induction fuel with
  | zero => intro attempt _ h2 _; omega
  | succ f ih =>
    intro attempt hsum _ hall
    obtain ⟨r, hr, hs, hn⟩ := hall attempt (Nat.le_refl _) (by omega)
    have hnot2xx : ¬ (200 ≤ r.statusCode ∧ r.statusCode < 300) := by
      rintro ⟨_, hlt⟩; omega
    have hnot401 : ¬ (r.statusCode = 401 ∧ jsIncludes url "/auth/" = false) := by
      rintro ⟨h401, _⟩; exact hn h401
    by_cases hf : f = 0
    · have heq : attempt = retries := by omega
      rw [reqStep_other_last url retries env f attempt r hr hnot2xx hnot401 heq]
      exact ⟨rfl, ⟨r, heq ▸ hr, rfl⟩⟩
    · have hne : attempt ≠ retries := by omega
      rw [reqStep_other_retry url retries env f attempt r hr hnot2xx hnot401 hne]
      have ihres := ih (attempt + 1) (by omega) (by omega)
        (fun k hk1 hk2 => hall k (by omega) hk2)
      obtain ⟨hdel, rl, hrl, hres⟩ := ihres
      exact ⟨hdel, ⟨rl, hrl, hres⟩⟩

/-! ## Concrete inputs used by witnesses and counterexamples -/

def resp2xx : ApiResponse :=
  { statusCode := 200, error_description := none, message := none,
    detail := none, body := "payload" }

def resp500 : ApiResponse :=
  { statusCode := 500, error_description := none, message := none,
    detail := none, body := "" }

def resp401 : ApiResponse :=
  { statusCode := 401, error_description := none, message := none,
    detail := none, body := "" }

def resp418 : ApiResponse :=
  { statusCode := 418, error_description := none, message := none,
    detail := some "teapot", body := "" }

/-- Constant attempt environment: a stored token and the same transport
outcome and refresh answer at every attempt. -/
def envOf (o : TransportOutcome) (b : Bool) : Nat → AttemptEnv :=
  fun _ => { storageRead := .ok "tok", outcome := o, refreshResult := b }

/-- Every attempt fails with a thrown network error. -/
def envThrown : Nat → AttemptEnv :=
  fun _ => { storageRead := .ok "tok", outcome := .thrown "network error",
             refreshResult := false }

/-- Attempts 1 and 2 get a 500; attempt 3 gets a 401 whose refresh
succeeds — on the final attempt of the budget. -/
def env401LastOk : Nat → AttemptEnv := fun k =>
  if k = 3 then
    { storageRead := .ok "tok", outcome := .resp resp401, refreshResult := true }
  else
    { storageRead := .ok "tok", outcome := .resp resp500, refreshResult := false }

/-- Attempt 1 gets a 401 whose refresh succeeds; the retry gets a 2xx. -/
def env401FirstOk : Nat → AttemptEnv := fun k =>
  if k = 1 then
    { storageRead := .ok "tok", outcome := .resp resp401, refreshResult := true }
  else
    { storageRead := .ok "tok", outcome := .resp resp2xx, refreshResult := false }

/-- The storage read throws; the transport would answer 2xx. -/
def envNoTok : Nat → AttemptEnv :=
  fun _ => { storageRead := .error (), outcome := .resp resp2xx,
             refreshResult := false }

/-! ## Claims C2-C7, C10 about the request client -/

/-- C5: a call whose first attempt returns a status in [200, 300) returns
the parsed body, issues exactly one attempt, triggers no refresh, clears
no credentials and never sleeps. -/
theorem c5_first_attempt_2xx (url : String) (env : Nat → AttemptEnv)
    (r : ApiResponse) (ho : (env 1).outcome = .resp r)
    (h2 : 200 ≤ r.statusCode) (h3 : r.statusCode < 300) :
    request url env =
      { attempts := 1, headers := [authHeader url (env 1)], delays := [],
        clears := 0, refreshCalls := 0, result := .success r.body } :=
  reqStep_2xx url apiRetries env 2 1 r ho h2 h3

/-- Closed instantiation of `c5_first_attempt_2xx`. -/
theorem c5_first_attempt_2xx_witness :
    (envOf (.resp resp2xx) false 1).outcome = .resp resp2xx ∧
    request "/api/recipes" (envOf (.resp resp2xx) false) =
      { attempts := 1,
        headers := [authHeader "/api/recipes" (envOf (.resp resp2xx) false 1)],
        delays := [], clears := 0, refreshCalls := 0,
        result := .success resp2xx.body } :=
  ⟨rfl, c5_first_attempt_2xx "/api/recipes" (envOf (.resp resp2xx) false)
    resp2xx rfl (by decide) (by decide)⟩

/-- C4 counterexample: three attempts all answered by a 500 response —
the claim requires a 1-second delay between each pair of consecutive
attempts, but the code retries a non-2xx response immediately: three
attempts are issued and the delay list is empty. -/
theorem c4_counterexample :
    (request "/api/x" (envOf (.resp resp500) false)).attempts = 3 ∧
    (request "/api/x" (envOf (.resp resp500) false)).delays = [] := by
  decide

/-- C4 (amended): the number of attempts never exceeds 3; the constant
1-second delay elapses between consecutive attempts when the failures
are thrown transport errors (network error / timeout), while retries
after a non-2xx non-401 response are immediate (no delay). -/
theorem c4_attempt_budget (url : String) (env : Nat → AttemptEnv) :
    (request url env).attempts ≤ apiRetries ∧
    ((∀ k, 1 ≤ k → k ≤ apiRetries → ∃ e, (env k).outcome = .thrown e) →
      (request url env).attempts = apiRetries ∧
      (request url env).delays = List.replicate (apiRetries - 1) 1000) ∧
    ((∀ k, 1 ≤ k → k ≤ apiRetries → ∃ r, (env k).outcome = .resp r ∧
        300 ≤ r.statusCode ∧ r.statusCode ≠ 401) →
      (request url env).delays = []) := by
  refine ⟨requestGo_attempts_le url apiRetries env apiRetries 1, ?_, ?_⟩
  · intro h
    exact requestGo_all_thrown url apiRetries env apiRetries 1 rfl (by decide)
      (fun k hk1 hk2 => h k hk1 hk2)
  · intro h
    exact (requestGo_all_non401 url apiRetries env apiRetries 1 rfl (by decide)
      (fun k hk1 hk2 => h k hk1 hk2)).1

/-- Closed instantiation of `c4_attempt_budget` on an all-network-error
run. -/
theorem c4_attempt_budget_witness :
    (request "/api/x" envThrown).attempts ≤ apiRetries ∧
    ((request "/api/x" envThrown).attempts = apiRetries ∧
      (request "/api/x" envThrown).delays =
        List.replicate (apiRetries - 1) 1000) :=
  ⟨(c4_attempt_budget "/api/x" envThrown).1,
    (c4_attempt_budget "/api/x" envThrown).2.1
      (fun _ _ _ => ⟨"network error", rfl⟩)⟩

/-- C3 counterexample: attempts 1-2 get a 500, attempt 3 gets a 401 and
the refresh succeeds — yet the original request is not re-issued at all:
the budget is exhausted, only 3 attempts are made and the call fails
with the generic message. -/
theorem c3_counterexample :
    (request "/api/x" env401LastOk).attempts = 3 ∧
    (request "/api/x" env401LastOk).refreshCalls = 1 ∧
    (request "/api/x" env401LastOk).result = .failure "请求失败" := by
  decide

/-- C3 (amended): a 401 on a non-`/auth/` URL whose refresh succeeds
makes the loop re-issue the request exactly once more, immediately (no
delay, no clear), drawing on the same remaining attempt budget (`fuel`);
and once the budget is exhausted no further attempt is issued — the call
fails with the generic request-failed message. -/
theorem c3_refresh_retry_within_budget (url : String) (retries : Nat)
    (env : Nat → AttemptEnv) (fuel attempt : Nat) (r : ApiResponse)
    (ho : (env attempt).outcome = .resp r) (h401 : r.statusCode = 401)
    (hurl : jsIncludes url "/auth/" = false)
    (hok : (env attempt).refreshResult = true) :
    requestGo url retries env (fuel + 1) attempt =
      { attempts := (requestGo url retries env fuel (attempt + 1)).attempts + 1,
        headers := authHeader url (env attempt) ::
          (requestGo url retries env fuel (attempt + 1)).headers,
        delays := (requestGo url retries env fuel (attempt + 1)).delays,
        clears := (requestGo url retries env fuel (attempt + 1)).clears,
        refreshCalls :=
          (requestGo url retries env fuel (attempt + 1)).refreshCalls + 1,
        result := (requestGo url retries env fuel (attempt + 1)).result } ∧
    requestGo url retries env 0 (attempt + 1) =
      { attempts := 0, headers := [], delays := [], clears := 0,
        refreshCalls := 0, result := .failure "请求失败" } :=
  ⟨reqStep_401_refresh_ok url retries env fuel attempt r ho h401 hurl hok,
    reqGo_zero url retries env (attempt + 1)⟩

/-- Closed instantiation of `c3_refresh_retry_within_budget`. -/
theorem c3_refresh_retry_within_budget_witness :
    requestGo "/api/x" 3 env401FirstOk (2 + 1) 1 =
      { attempts := (requestGo "/api/x" 3 env401FirstOk 2 2).attempts + 1,
        headers := authHeader "/api/x" (env401FirstOk 1) ::
          (requestGo "/api/x" 3 env401FirstOk 2 2).headers,
        delays := (requestGo "/api/x" 3 env401FirstOk 2 2).delays,
        clears := (requestGo "/api/x" 3 env401FirstOk 2 2).clears,
        refreshCalls := (requestGo "/api/x" 3 env401FirstOk 2 2).refreshCalls + 1,
        result := (requestGo "/api/x" 3 env401FirstOk 2 2).result } ∧
    requestGo "/api/x" 3 env401FirstOk 0 2 =
      { attempts := 0, headers := [], delays := [], clears := 0,
        refreshCalls := 0, result := .failure "请求失败" } :=
  c3_refresh_retry_within_budget "/api/x" 3 env401FirstOk 2 1 resp401
    (by decide) (by decide) (by decide) (by decide)

/-- C2 counterexample: every attempt gets a 401 and the refresh fails
each time — the claim requires the credentials to be cleared exactly once
and the authentication-expired error not to be retried further, but the
thrown error is caught by the loop's own catch: the credentials are
cleared three times and two delayed retries follow the first failed
refresh. -/
theorem c2_counterexample :
    (request "/api/x" (envOf (.resp resp401) false)).clears = 3 ∧
    (request "/api/x" (envOf (.resp resp401) false)).delays = [1000, 1000] ∧
    (request "/api/x" (envOf (.resp resp401) false)).attempts = 3 := by
  decide

/-- C2 (amended): when a 401-triggered refresh fails, the four
credentials are cleared and an authentication-expired error is thrown at
that point, but the throw is intercepted by the loop's own catch: while
attempts remain the request is retried after a 1-second delay (clearing
again on every subsequent failed refresh), and the authentication-expired
error reaches the caller only when the failing refresh happens on the
final attempt. -/
theorem c2_refresh_failure (url : String) (env : Nat → AttemptEnv)
    (hurl : jsIncludes url "/auth/" = false)
    (hall : ∀ k, 1 ≤ k → k ≤ apiRetries → ∃ r, (env k).outcome = .resp r ∧
      r.statusCode = 401 ∧ (env k).refreshResult = false) :
    (request url env).attempts = apiRetries ∧
    (request url env).clears = apiRetries ∧
    (request url env).refreshCalls = apiRetries ∧
    (request url env).delays = List.replicate (apiRetries - 1) 1000 ∧
    (request url env).result = .failure "登录已过期，请重新登录" :=
  requestGo_all_401_fail url apiRetries env hurl apiRetries 1 rfl (by decide)
    hall

/-- Closed instantiation of `c2_refresh_failure`. -/
theorem c2_refresh_failure_witness :
    (request "/api/x" (envOf (.resp resp401) false)).attempts = apiRetries ∧
    (request "/api/x" (envOf (.resp resp401) false)).clears = apiRetries ∧
    (request "/api/x" (envOf (.resp resp401) false)).refreshCalls = apiRetries ∧
    (request "/api/x" (envOf (.resp resp401) false)).delays =
      List.replicate (apiRetries - 1) 1000 ∧
    (request "/api/x" (envOf (.resp resp401) false)).result =
      .failure "登录已过期，请重新登录" :=
  c2_refresh_failure "/api/x" (envOf (.resp resp401) false) (by decide)
    (fun _ _ _ => ⟨resp401, rfl, rfl, rfl⟩)

/-- Modelled from the claim wording of C7: the message precedence the
claim states — the service-provided `error_description` field if
present, otherwise the generic `message` field, otherwise a generic
request-failed string.  (The code additionally consults `detail` before
the generic string.) -/
def claimedErrorMsg (r : ApiResponse) : String :=
  jsOrStr r.error_description
    (jsOrStr r.message ("请求失败: " ++ toString r.statusCode))

/-- C7 counterexample: a response whose body has only `detail` set —
the code surfaces `detail` ("teapot") while the claim's precedence
(without the `detail` step) dictates the generic string. -/
theorem c7_counterexample :
    (request "/api/x" (envOf (.resp resp418) false)).result =
      .failure "teapot" ∧
    claimedErrorMsg resp418 = "请求失败: 418" ∧
    ("teapot" : String) ≠ "请求失败: 418" := by
  decide

/-- C7 (amended): a call exhausting all attempts on non-2xx, non-401
responses raises an error whose message is chosen by precedence from the
last response by `responseErrorMsg`: `error_description`, else `message`,
else `detail`, else the generic request-failed string with the status
code. -/
theorem c7_exhaustion_message (url : String) (env : Nat → AttemptEnv)
    (hall : ∀ k, 1 ≤ k → k ≤ apiRetries → ∃ r, (env k).outcome = .resp r ∧
      300 ≤ r.statusCode ∧ r.statusCode ≠ 401) :
    ∃ r, (env apiRetries).outcome = .resp r ∧
      (request url env).result = .failure (responseErrorMsg r) :=
  (requestGo_all_non401 url apiRetries env apiRetries 1 rfl (by decide) hall).2

/-- Closed instantiation of `c7_exhaustion_message`. -/
theorem c7_exhaustion_message_witness :
    ∃ r, (envOf (.resp resp418) false apiRetries).outcome = .resp r ∧
      (request "/api/x" (envOf (.resp resp418) false)).result =
        .failure (responseErrorMsg r) :=
  c7_exhaustion_message "/api/x" (envOf (.resp resp418) false)
    (fun _ _ _ => ⟨resp418, rfl, by decide, by decide⟩)

/-- C6: in any call, the Authorization header of every issued attempt is:
`Bearer <stored token>` when the URL does not contain `/auth/token` (the
credential-endpoint check of api.ts line 101) and the token read yields a
token, and absent when the URL contains `/auth/token`. -/
theorem c6_bearer_header (url : String) (env : Nat → AttemptEnv) (j : Nat)
    (hj : j < (request url env).headers.length) :
    (∀ t, jsIncludes url "/auth/token" = false →
      getToken (env (j + 1)).storageRead = some t →
      (request url env).headers.get? j = some (some ("Bearer " ++ t))) ∧
    (jsIncludes url "/auth/token" = true →
      (request url env).headers.get? j = some none) := by
  have hget := requestGo_headers_get url apiRetries env apiRetries 1 j hj
  have harith : 1 + j = j + 1 := by omega
  rw [harith] at hget
  have hreq : (request url env).headers.get? j =
      some (authHeader url (env (j + 1))) := hget
  constructor
  · intro t hfalse hsome
    rw [hreq]
    simp [authHeader, hfalse, hsome]
  · intro htrue
    rw [hreq]
    simp [authHeader, htrue]

/-- Closed instantiation of `c6_bearer_header`. -/
theorem c6_bearer_header_witness :
    jsIncludes "/api/recipes" "/auth/token" = false ∧
    getToken (envOf (.resp resp2xx) false 1).storageRead = some "tok" ∧
    (request "/api/recipes" (envOf (.resp resp2xx) false)).headers.get? 0 =
      some (some ("Bearer " ++ "tok")) :=
  ⟨by decide, rfl,
    (c6_bearer_header "/api/recipes" (envOf (.resp resp2xx) false) 0
      (by decide)).1 "tok" (by decide) rfl⟩

/-- C10: when the token read of the first attempt yields no token
(absent value or thrown storage access), the request is still issued —
at least one attempt occurs — and it carries no Authorization header;
the missing credential alone never fails the call before the transport
is consulted. -/
theorem c10_absent_token (url : String) (env : Nat → AttemptEnv)
    (h : getToken (env 1).storageRead = none) :
    1 ≤ (request url env).attempts ∧
    (request url env).headers.head? = some none := by
  have hfirst := requestGo_first url apiRetries env 2 1
  have hhdr : authHeader url (env 1) = none := by
    cases hinc : jsIncludes url "/auth/token" <;> simp [authHeader, hinc, h]
  refine ⟨hfirst.1, ?_⟩
  have h2 : (request url env).headers.head? =
      some (authHeader url (env 1)) := hfirst.2
  rw [h2, hhdr]

/-- Closed instantiation of `c10_absent_token`: the storage access
throws, the attempt is still issued with no Authorization header. -/
theorem c10_absent_token_witness :
    getToken (envNoTok 1).storageRead = none ∧
    (1 ≤ (request "/api/recipes" envNoTok).attempts ∧
      (request "/api/recipes" envNoTok).headers.head? = some none) :=
  ⟨rfl, c10_absent_token "/api/recipes" envNoTok rfl⟩

/-- C9: when an access token is stored, a recorded expiry produced by
`saveTokens` (with its 5-minute margin) lies in the future, `Date.now()`
is non-negative, then `ensureValidToken` returns the stored token
unchanged, leaves the storage untouched and issues zero network calls,
for every possible refresh behaviour. -/
theorem c9_ensure_valid_no_refresh (s : UserStorage) (t : String)
    (now t0 expiresIn : Int)
    (ht : s.access_token = some t) (hne : t ≠ "")
    (he : s.token_expires_at = some (saveTokensExpiresAt t0 expiresIn))
    (hnow : 0 ≤ now) (hfut : now < saveTokensExpiresAt t0 expiresIn) :
    ∀ doRefresh, ensureValidToken s now doRefresh = (some t, s, 0) := by
  intro doRefresh
  have hacc : getAccessToken s = some t := by
    simp [getAccessToken, ht, hne]
  have hexp : isTokenExpiringSoon s now = false := by
    have hne0 : ¬ saveTokensExpiresAt t0 expiresIn = 0 := by omega
    have hlt : ¬ now ≥ saveTokensExpiresAt t0 expiresIn := by omega
    simp [isTokenExpiringSoon, he, hne0, hlt]
  simp [ensureValidToken, hacc, hexp]

/-- Concrete storage for the `c9_ensure_valid_no_refresh` witness: a
token saved at time 0 with a 2-hour `expires_in`. -/
def c9Storage : UserStorage :=
  { access_token := some "tok", refresh_token := some "rtok",
    token_expires_at := some (saveTokensExpiresAt 0 7200),
    user_info := none }

/-- Closed instantiation of `c9_ensure_valid_no_refresh` at `now = 100`
against a refresh behaviour that would issue one network call. -/
theorem c9_ensure_valid_no_refresh_witness :
    ensureValidToken c9Storage 100 (fun s => (none, s, 1)) =
      (some "tok", c9Storage, 0) :=
  c9_ensure_valid_no_refresh c9Storage "tok" 100 0 7200 rfl (by decide) rfl
    (by decide) (by decide) (fun s => (none, s, 1))
